import Mathlib

/-!
Verification of the task-orchestration core of the aiFlock repository.

The development shallowly embeds the Go sources:
  * `internal/task/task.go` and `internal/task/manager.go` (task registry),
  * `internal/task/task.go` (`Store`, JSON persistence),
  * `internal/status/parser.go` and the status watcher (ingestion pipeline),
  * `internal/git/worktree.go` and `internal/git/assign.go` (worktree pool),
  * `cmd/flock/main.go` (startup cleanup of stale status files),
  * the `StatusMsg` branch of `internal/tui/app.go` (registry write path).

Modelling conventions:
  * Go strings are Lean `String`s; the byte-level Go operations
    (`strings.TrimSpace`, `strings.SplitN`, `strings.HasPrefix`, ...) are
    re-implemented below over `List Char`, which coincides with the Go
    behaviour on the ASCII data these functions are applied to.
  * Machine integers are modelled as `Nat`/`Int`; `int` overflow is never
    reached by the modelled quantities and is not modelled.
  * Time stamps (`time.Time`) are modelled as the represented instant, an
    `Int` of Unix nanoseconds, which is exactly what the RFC3339
    serialization used by `encoding/json` preserves.
  * Subprocess-backed git commands become transitions of an explicit
    `GitRepo` state; an external-failure oracle (`GitEnv`) injects
    subprocess failures where the Go code checks for them.
  * File-system contents (the status directory, the persisted task list)
    are explicit values threaded through the functions that read or write
    them.
-/

namespace Flock

/-! ## Byte/char-level string helpers (Go `strings`/`strconv`/`fmt`) -/

/-- The characters `strings.TrimSpace` strips on ASCII input
(space, tab, newline, vertical tab, form feed, carriage return). -/
def isSpaceCh (c : Char) : Bool :=
  c = ' ' || c = '\t' || c = '\n' || c = '\x0b' || c = '\x0c' || c = '\r'

/-- ASCII decimal digit test (`unicode.IsDigit` restricted to ASCII,
which is all `strconv.ParseInt`/`fmt.Sscanf` accept for `%d`). -/
def isDigitCh (c : Char) : Bool :=
  48 ≤ c.toNat && c.toNat ≤ 57

/-- Numeric value of an ASCII digit character. -/
def charVal (c : Char) : Nat := c.toNat - 48

/-- The ASCII digit character for a value `< 10`. -/
def digitChar : Nat → Char
  | 0 => '0' | 1 => '1' | 2 => '2' | 3 => '3' | 4 => '4'
  | 5 => '5' | 6 => '6' | 7 => '7' | 8 => '8' | _ => '9'

/-- Value of a big-endian digit list (how a decimal numeral denotes a number). -/
def valBE (l : List Nat) : Nat := l.foldl (fun a d => 10 * a + d) 0

/-- Little-endian decimal digits, with explicit fuel so that the kernel
can evaluate it (`n` itself is always enough fuel). -/
def digitsAuxLE : Nat → Nat → List Nat
  | 0, _ => []
  | fuel + 1, n => if n = 0 then [] else n % 10 :: digitsAuxLE fuel (n / 10)

/-- Big-endian decimal digits of `n` (non-empty: `0` is printed `"0"`). -/
def digitsBE (n : Nat) : List Nat :=
  if n = 0 then [0] else (digitsAuxLE n n).reverse

/-- Model of `fmt.Sprintf("%03d", n)`: decimal, zero-padded to width 3
(`Manager.Create`'s ID format). -/
def pad3 (n : Nat) : String :=
  let ds := (digitsBE n).map digitChar
  ⟨List.replicate (3 - ds.length) '0' ++ ds⟩

/-- Longest digit prefix of a char list, as a number; `none` if there is
no leading digit (`fmt.Sscanf` with `%d` fails then). -/
def digitsVal (l : List Char) : Option Nat :=
  match l.takeWhile isDigitCh with
  | [] => none
  | ds => some (valBE (ds.map charVal))

/-- Model of `fmt.Sscanf(s, "%d", &id)`: an optional sign followed by at least one
decimal digit; trailing garbage is ignored, as `Sscanf` stops at the first
non-digit once the verb is satisfied. -/
def sscanfD (s : String) : Option Int :=
  match s.data with
  | [] => none
  | c :: rest =>
    if c = '-' then (digitsVal rest).map (fun v => -(v : Int))
    else if c = '+' then (digitsVal rest).map (fun v => (v : Int))
    else (digitsVal (c :: rest)).map (fun v => (v : Int))

/-- Model of `strings.TrimSpace` (ASCII subset). -/
def goTrim (s : String) : String :=
  ⟨((s.data.dropWhile isSpaceCh).reverse.dropWhile isSpaceCh).reverse⟩

/-- Split a char list at the first `=`; `none` when there is no `=`
(then `strings.SplitN(s, "=", 2)` returns a single part). -/
def splitEq : List Char → Option (List Char × List Char)
  | [] => none
  | c :: rest =>
    if c = '=' then some ([], rest)
    else (splitEq rest).map (fun p => (c :: p.1, p.2))

/-- Model of `strings.HasPrefix` on char lists. -/
def strStarts : List Char → List Char → Bool
  | [], _ => true
  | _ :: _, [] => false
  | p :: ps, c :: cs => p = c && strStarts ps cs

/-- Model of `strings.HasPrefix s p`. -/
def goHasPrefixStr (s p : String) : Bool := strStarts p.data s.data

/-- Model of `strings.HasSuffix s p`. -/
def goHasSuffixStr (s p : String) : Bool :=
  strStarts p.data.reverse s.data.reverse

/-- Drop the last `n` characters (`name[:len(name)-n]` on ASCII names). -/
def dropLastChars (s : String) (n : Nat) : String :=
  ⟨(s.data.reverse.drop n).reverse⟩

/-- Model of `filepath.Ext`: the suffix of the last path element starting at the
final dot, `""` when that element has no dot. -/
def extOf (s : String) : String :=
  if (s.data.reverse.takeWhile (fun c => c ≠ '/')).any (fun c => c = '.') then
    ⟨'.' :: ((s.data.reverse.takeWhile (fun c => c ≠ '/')).takeWhile
      (fun c => c ≠ '.')).reverse⟩
  else ""

/-- Model of `filepath.Base` for slash-separated paths: trailing slashes dropped,
then everything after the last slash; `"."` for the empty path, `"/"`
when only slashes remain. -/
def baseName (p : String) : String :=
  if p = "" then "."
  else if p.data.all (fun c => c = '/') then "/"
  else ⟨((p.data.reverse.dropWhile (fun c => c = '/')).takeWhile
    (fun c => c ≠ '/')).reverse⟩

/-- Whether a fallible call returned without error (`err == nil`). -/
def exOk {ε α : Type} : Except ε α → Bool
  | .ok _ => true
  | .error _ => false

/-! ## Task (`internal/task/task.go`) -/

/-- Model of `task.Task`. `task.Status` is a Go string type, so `status` is a
`String`; timestamps are the represented instants (Unix nanoseconds). -/
structure Task where
  id : String
  name : String
  promptFile : String
  prompt : String
  cwd : String
  status : String
  tabName : String
  useWorktree : Bool
  worktreePath : String
  gitBranch : String
  repoRoot : String
  createdAt : Int
  updatedAt : Int
deriving DecidableEq, Repr

def statusPending : String := "PENDING"
def statusWorking : String := "WORKING"
def statusWaiting : String := "WAITING"
def statusDone : String := "DONE"

/-- Characters `sanitizeTabName` keeps: alphanumeric, space, dash, underscore. -/
def allowedTabCh (c : Char) : Bool :=
  ('a' ≤ c && c ≤ 'z') || ('A' ≤ c && c ≤ 'Z') || ('0' ≤ c && c ≤ '9')
    || c = ' ' || c = '-' || c = '_'

/-- Model of `sanitizeTabName`. -/
def sanitizeTabName (name : String) : String := ⟨name.data.filter allowedTabCh⟩

/-- Model of `task.NewTask` (the version taking a prompt-file path). The sanitized
name is truncated at 15 bytes; it is pure ASCII, so bytes = chars. -/
def NewTask (id name promptFile cwd : String) (now : Int) : Task :=
  let sanitized := sanitizeTabName name
  let sanitized := if sanitized.data.length > 15 then ⟨sanitized.data.take 15⟩ else sanitized
  { id := id, name := name, promptFile := promptFile, prompt := "", cwd := cwd
    status := statusPending
    tabName := "agent-" ++ id ++ "-" ++ sanitized
    useWorktree := false, worktreePath := "", gitBranch := "", repoRoot := ""
    createdAt := now, updatedAt := now }

def Task.isActive (t : Task) : Bool := t.status ≠ statusPending && t.status ≠ statusDone

def Task.needsAttention (t : Task) : Bool := t.status = statusWaiting

/-! ## Store (`internal/task/task.go`, `Store.Save`/`Store.Load`)

`encoding/json` marshalling of `[]*Task` is modelled as a `Json` value;
`Store.Save` replaces the file's contents with that value, `Store.Load`
reads it back (`nil` contents = missing file, which `Load` treats as an
empty task list). `json.Unmarshal` fills a zero `Task` from the object's
keys in order: a known key with a mismatched value type is an error, an
unknown key is ignored, and a missing key leaves the zero value — which
is exactly what the `omitempty` tags rely on. -/

inductive Json where
  | null
  | jbool (b : Bool)
  | jstr (s : String)
  | jnum (n : Int)
  | jarr (xs : List Json)
  | jobj (fields : List (String × Json))

/-- Marshalling one `Task`: fields in struct order, `omitempty` fields
dropped when empty (tags from `task.go`). -/
def encodeTask (t : Task) : Json :=
  .jobj ([("id", .jstr t.id), ("name", .jstr t.name)]
    ++ (if t.promptFile = "" then [] else [("prompt_file", .jstr t.promptFile)])
    ++ (if t.prompt = "" then [] else [("prompt", .jstr t.prompt)])
    ++ [("cwd", .jstr t.cwd), ("status", .jstr t.status), ("tab_name", .jstr t.tabName),
        ("use_worktree", .jbool t.useWorktree)]
    ++ (if t.worktreePath = "" then [] else [("worktree_path", .jstr t.worktreePath)])
    ++ (if t.gitBranch = "" then [] else [("git_branch", .jstr t.gitBranch)])
    ++ (if t.repoRoot = "" then [] else [("repo_root", .jstr t.repoRoot)])
    ++ [("created_at", .jnum t.createdAt), ("updated_at", .jnum t.updatedAt)])

/-- The zero `Task` that `json.Unmarshal` starts from. -/
def zeroTask : Task :=
  { id := "", name := "", promptFile := "", prompt := "", cwd := "", status := ""
    tabName := "", useWorktree := false, worktreePath := "", gitBranch := ""
    repoRoot := "", createdAt := 0, updatedAt := 0 }

/-- One key/value assignment of `json.Unmarshal` into a `Task`. -/
def setTaskField (t : Task) : String × Json → Option Task
  | ("id", .jstr s) => some { t with id := s }
  | ("id", _) => none
  | ("name", .jstr s) => some { t with name := s }
  | ("name", _) => none
  | ("prompt_file", .jstr s) => some { t with promptFile := s }
  | ("prompt_file", _) => none
  | ("prompt", .jstr s) => some { t with prompt := s }
  | ("prompt", _) => none
  | ("cwd", .jstr s) => some { t with cwd := s }
  | ("cwd", _) => none
  | ("status", .jstr s) => some { t with status := s }
  | ("status", _) => none
  | ("tab_name", .jstr s) => some { t with tabName := s }
  | ("tab_name", _) => none
  | ("use_worktree", .jbool b) => some { t with useWorktree := b }
  | ("use_worktree", _) => none
  | ("worktree_path", .jstr s) => some { t with worktreePath := s }
  | ("worktree_path", _) => none
  | ("git_branch", .jstr s) => some { t with gitBranch := s }
  | ("git_branch", _) => none
  | ("repo_root", .jstr s) => some { t with repoRoot := s }
  | ("repo_root", _) => none
  | ("created_at", .jnum v) => some { t with createdAt := v }
  | ("created_at", _) => none
  | ("updated_at", .jnum v) => some { t with updatedAt := v }
  | ("updated_at", _) => none
  | (_, _) => some t

/-- Error-propagating sequencing of the field assignments. -/
def setTaskFieldO (acc : Option Task) (kv : String × Json) : Option Task :=
  acc.bind (fun t => setTaskField t kv)

/-- Unmarshalling one `Task`. -/
def decodeTask : Json → Option Task
  | .jobj fields => fields.foldl setTaskFieldO (some zeroTask)
  | _ => none

/-- Marshalling `[]*Task` (`Store.Save`'s payload). -/
def encodeTasks (ts : List Task) : Json := .jarr (ts.map encodeTask)

/-- Unmarshalling a JSON array element-wise. -/
def decodeTaskList : List Json → Option (List Task)
  | [] => some []
  | j :: js =>
    match decodeTask j, decodeTaskList js with
    | some t, some ts => some (t :: ts)
    | _, _ => none

/-- Unmarshalling `[]*Task`. -/
def decodeTasks : Json → Option (List Task)
  | .jarr xs => decodeTaskList xs
  | _ => none

/-- The store file: `none` = file does not exist. -/
def StoreFile := Option Json

/-- Model of `Store.Save`: overwrite the file with the marshalled list. -/
def storeSave (_old : StoreFile) (ts : List Task) : StoreFile := some (encodeTasks ts)

/-- Model of `Store.Load`: a missing file is an empty list; un-unmarshallable
contents are an error (`none` here). -/
def storeLoad : StoreFile → Option (List Task)
  | none => some []
  | some j => decodeTasks j

/-! ## Manager (`internal/task/manager.go`)

The Go `tasks` map plus the `order` slice always hold the same
identifiers (every mutation updates both), so they are modelled together
as one insertion-ordered association list. `Store.Save` always succeeds
in the model; the persisted snapshot is threaded explicitly. -/

structure Manager where
  entries : List (String × Task)
  counter : Nat
deriving DecidableEq, Repr

/-- Model of `NewManager`. -/
def Manager.new : Manager := ⟨[], 0⟩

/-- Model of `Manager.Get`. -/
def Manager.get (m : Manager) (id : String) : Option Task :=
  (m.entries.find? (fun e => e.1 = id)).map (fun e => e.2)

/-- The order-preserving snapshot every mutating call persists. -/
def Manager.snapshot (m : Manager) : List Task := m.entries.map (fun e => e.2)

/-- The per-task counter update inside `Manager.Load`:
`fmt.Sscanf(t.ID, "%d", &id)`, and `counter = id + 1` when `id ≥ counter`. -/
def loadCounterStep (c : Nat) (t : Task) : Nat :=
  match sscanfD t.id with
  | some v => if (c : Int) ≤ v then (v + 1).toNat else c
  | none => c

/-- Model of `Manager.Load` applied to the tasks the store returned: the table is
rebuilt and the counter is raised above every numeric ID seen. -/
def Manager.load (m : Manager) (ts : List Task) : Manager :=
  { entries := ts.map (fun t => (t.id, t))
    counter := ts.foldl loadCounterStep m.counter }

/-- Model of `Manager.Create`: assign `%03d` of the counter, bump it, append the
task, persist the snapshot. Returns (manager, saved snapshot, task). -/
def Manager.create (m : Manager) (name promptFile cwd : String) (now : Int) :
    Manager × List Task × Task :=
  let id := pad3 m.counter
  let t := NewTask id name promptFile cwd now
  let m' : Manager := { entries := m.entries ++ [(id, t)], counter := m.counter + 1 }
  (m', m'.snapshot, t)

/-- Model of `Manager.Update`: apply `fn` to the task, persist; error when absent. -/
def Manager.update (m : Manager) (id : String) (fn : Task → Task) :
    Except String (Manager × List Task) :=
  match m.get id with
  | none => .error ("task " ++ id ++ " not found")
  | some _ =>
    let m' : Manager :=
      { m with entries := m.entries.map (fun e => if e.1 = id then (e.1, fn e.2) else e) }
    .ok (m', m'.snapshot)

/-- Model of `Manager.UpdateStatus`. -/
def Manager.updateStatus (m : Manager) (id status : String) :
    Except String (Manager × List Task) :=
  m.update id (fun t => { t with status := status })

/-- Model of `Manager.Delete`: drop the task from table and order, persist;
error when absent. -/
def Manager.delete (m : Manager) (id : String) :
    Except String (Manager × List Task) :=
  match m.get id with
  | none => .error ("task " ++ id ++ " not found")
  | some _ =>
    let m' : Manager := { m with entries := m.entries.filter (fun e => e.1 ≠ id) }
    .ok (m', m'.snapshot)

/-- Model of `Manager.List`. -/
def Manager.list (m : Manager) : List Task := m.snapshot

/-! ## Registry traces (claim C1 groundwork)

A trace interleaves `Manager.Create` and `Manager.Delete` calls with
restarts; a restart is `NewManager` followed by `Manager.Load` of
whatever `Store.Load` returns, exactly as `cmd/flock/main.go` does at
process start (a `Load` failure is only logged there, leaving the fresh
manager in place). -/

inductive MgrOp where
  | mkTask (name promptFile cwd : String) (now : Int)
  | delTask (id : String)
  | restart
deriving DecidableEq, Repr

structure TSys where
  mgr : Manager
  file : StoreFile

def TSys.init : TSys := ⟨Manager.new, none⟩

/-- One registry-level operation; `Create` reports the assigned ID. -/
def TSys.step (s : TSys) : MgrOp → TSys × Option String
  | .mkTask n pf c now =>
    let r := s.mgr.create n pf c now
    (⟨r.1, storeSave s.file r.2.1⟩, some r.2.2.id)
  | .delTask id =>
    match s.mgr.delete id with
    | .error _ => (s, none)
    | .ok r => (⟨r.1, storeSave s.file r.2⟩, none)
  | .restart =>
    match storeLoad s.file with
    | some ts => (⟨Manager.new.load ts, s.file⟩, none)
    | none => (⟨Manager.new, s.file⟩, none)

/-- The IDs assigned by the `Create` calls of a trace, in order. -/
def assignedIds (s : TSys) : List MgrOp → List String
  | [] => []
  | op :: ops =>
    let r := s.step op
    r.2.toList ++ assignedIds r.1 ops

/-- The numeric value `Manager.Load` would read off an ID. -/
def idNum (s : String) : Int := (sscanfD s).getD (-1)

/-- The demonstration trace behind the C1 counterexample: two creates,
deletion of the task holding the largest ID, a restart, one more create. -/
def c1Ops : List MgrOp :=
  [.mkTask "a" "" "/repo" 0, .mkTask "b" "" "/repo" 0, .delTask "001",
   .restart, .mkTask "c" "" "/repo" 0]

def c1WOps : List MgrOp :=
  [.mkTask "a" "" "/repo" 0, .delTask "000", .mkTask "b" "" "/repo" 0]

/-! ## Status file parser (`internal/status/parser.go`)

`ParseStatusFile` scans the file line by line; the file's contents are
passed in as the list of its lines (the `bufio.Scanner` split). A file
that cannot be opened or read errors before any of this logic runs; that
I/O layer is outside the model. -/

/-- Model of `status.Status`, the parsed record. -/
structure StatusRec where
  status : String
  taskID : String
  updated : Int
  tabName : String
  sessionID : String
deriving DecidableEq, Repr

def zeroStatusRec : StatusRec := ⟨"", "", 0, "", ""⟩

/-- Model of `strconv.ParseInt(value, 10, 64)`: optional sign, at least one digit,
nothing else, within the signed 64-bit range. -/
def parseInt64 (s : String) : Option Int :=
  let p : Bool × List Char :=
    match s.data with
    | '-' :: rest => (true, rest)
    | '+' :: rest => (false, rest)
    | cs => (false, cs)
  if p.2.isEmpty || p.2.any (fun c => !(isDigitCh c)) then none
  else
    let v : Int := (valBE (p.2.map charVal) : Nat)
    let v := if p.1 then -v else v
    if v < -(2 ^ 63) || 2 ^ 63 - 1 < v then none else some v

/-- One loop iteration of `ParseStatusFile`: trim, skip blanks and `#`
comments, split at the first `=`, trim key and value, update the matching
field (an unparsable `updated` value is skipped, unknown keys ignored). -/
def parseLine (st : StatusRec) (line : String) : StatusRec :=
  if goTrim line = "" || goHasPrefixStr (goTrim line) "#" then st
  else
    match splitEq (goTrim line).data with
    | none => st
    | some kv =>
      if goTrim ⟨kv.1⟩ = "status" then { st with status := goTrim ⟨kv.2⟩ }
      else if goTrim ⟨kv.1⟩ = "task_id" then { st with taskID := goTrim ⟨kv.2⟩ }
      else if goTrim ⟨kv.1⟩ = "updated" then
        match parseInt64 (goTrim ⟨kv.2⟩) with
        | some ts => { st with updated := ts }
        | none => st
      else if goTrim ⟨kv.1⟩ = "tab_name" then { st with tabName := goTrim ⟨kv.2⟩ }
      else if goTrim ⟨kv.1⟩ = "session_id" then { st with sessionID := goTrim ⟨kv.2⟩ }
      else st

/-- Model of `ParseStatusFile` on the file's lines: fold the per-line step over a
zero record, then reject the result when no task ID was collected. -/
def parseStatusFile (lines : List String) : Except String StatusRec :=
  if (lines.foldl parseLine zeroStatusRec).taskID = "" then
    .error "missing task_id in status file"
  else .ok (lines.foldl parseLine zeroStatusRec)

/-- Spec-side reading of "a `task_id` key=value line": the claim's own
words, for comparing the parser against. Returns the trimmed value when
the line is a (non-blank, non-comment) `task_id` assignment. -/
def taskIdOfLine (line : String) : Option String :=
  if goTrim line = "" || goHasPrefixStr (goTrim line) "#" then none
  else
    match splitEq (goTrim line).data with
    | none => none
    | some kv => if goTrim ⟨kv.1⟩ = "task_id" then some (goTrim ⟨kv.2⟩) else none

/-- Spec-side: the numeric value carried by an `updated` key=value line. -/
def updatedOfLine (line : String) : Option Int :=
  if goTrim line = "" || goHasPrefixStr (goTrim line) "#" then none
  else
    match splitEq (goTrim line).data with
    | none => none
    | some kv => if goTrim ⟨kv.1⟩ = "updated" then parseInt64 (goTrim ⟨kv.2⟩) else none

/-- The value of `f` on the last line where it fires (later lines win,
matching the fold's last-writer-wins behaviour). -/
def lastSome (f : String → Option α) : List String → Option α
  | [] => none
  | l :: ls => (lastSome f ls).orElse (fun _ => f l)

/-- The malformations `ParseStatusFile` skips silently: blank line,
`#` comment, no `=`, unrecognized key, or an `updated` value
`strconv.ParseInt` rejects. -/
def skippedLine (line : String) : Bool :=
  goTrim line = "" || goHasPrefixStr (goTrim line) "#" ||
    match splitEq (goTrim line).data with
    | none => true
    | some kv =>
      if goTrim ⟨kv.1⟩ = "status" || goTrim ⟨kv.1⟩ = "task_id"
          || goTrim ⟨kv.1⟩ = "tab_name" || goTrim ⟨kv.1⟩ = "session_id" then
        false
      else if goTrim ⟨kv.1⟩ = "updated" then (parseInt64 (goTrim ⟨kv.2⟩)).isNone
      else true

/-! ## Status watcher (the `status.Watcher` of the ingestion pipeline)

`handleFile` is the watcher's reaction to one file event. Notifications
(the listener-facing "changed" events, handed to the desktop-notification
wrapper) and the raw updates sent down the bounded channel to the registry
are collected as lists. The watcher's `lastStatus` map is an association
list; `initializing` suppresses notifications during the startup scan. -/

/-- The `{taskId, status}` pairs flowing to the UI/registry and to
listeners. -/
structure StatusUpdate where
  taskID : String
  status : String
deriving DecidableEq, Repr

structure Watcher where
  lastStatus : List (String × String)
  initializing : Bool
deriving DecidableEq, Repr

/-- Model of `NewWatcher`: empty dedup map, not initializing. -/
def Watcher.new : Watcher := ⟨[], false⟩

/-- Go map read `w.lastStatus[taskID]`. -/
def lookupLS (m : List (String × String)) (k : String) : Option String :=
  (m.find? (fun e => e.1 = k)).map (fun e => e.2)

/-- Go map write `w.lastStatus[taskID] = v`. -/
def setLS (m : List (String × String)) (k v : String) : List (String × String) :=
  if (m.find? (fun e => e.1 = k)).isSome then
    m.map (fun e => if e.1 = k then (k, v) else e)
  else m ++ [(k, v)]

/-- The post-parse part of `Watcher.handleFile`: dedup against
`lastStatus` for the listener notification (suppressed while
initializing), and always forward the raw update. Returns
(watcher, notifications, updates). -/
def Watcher.ingest (w : Watcher) (st : StatusRec) :
    Watcher × List StatusUpdate × List StatusUpdate :=
  let last := lookupLS w.lastStatus st.taskID
  if last = some st.status then (w, [], [⟨st.taskID, st.status⟩])
  else
    ({ w with lastStatus := setLS w.lastStatus st.taskID st.status },
      (if w.initializing then [] else [⟨st.taskID, st.status⟩]),
      [⟨st.taskID, st.status⟩])

/-- Model of `Watcher.handleFile`: ignore non-`.status` paths, drop files that do
not parse, otherwise ingest the record. The file's contents are the
explicit `content` argument. -/
def Watcher.handleFile (w : Watcher) (path : String) (content : List String) :
    Watcher × List StatusUpdate × List StatusUpdate :=
  if !(goHasSuffixStr path ".status") then (w, [], [])
  else
    match parseStatusFile content with
    | .error _ => (w, [], [])
    | .ok st => w.ingest st

/-! ## Registry write path (`internal/tui/app.go`, `StatusMsg` case)

A `StatusMsg` from the channel updates the task's status through
`Manager.UpdateStatus` when the task exists and is silently ignored
otherwise. -/

def applyStatusMsg (m : Manager) (f : StoreFile) (u : StatusUpdate) : Manager × StoreFile :=
  match m.get u.taskID with
  | none => (m, f)
  | some _ =>
    match m.updateStatus u.taskID u.status with
    | .ok r => (r.1, storeSave f r.2)
    | .error _ => (m, f)

def applyStatusMsgs (mf : Manager × StoreFile) (us : List StatusUpdate) :
    Manager × StoreFile :=
  us.foldl (fun acc u => applyStatusMsg acc.1 acc.2 u) mf

/-! ## The composed system (watcher + registry + store)

Events: a file event observed by the watcher (whose forwarded updates the
TUI applies in order), and the user actions that write status or mutate
the task list. -/

inductive SysEvent where
  | fileEvent (path : String) (content : List String)
  | startTask (id : String)
  | createTask (name promptFile cwd : String) (now : Int)
  | deleteTask (id : String)
deriving DecidableEq, Repr

structure FlockSys where
  w : Watcher
  mgr : Manager
  file : StoreFile

def FlockSys.init : FlockSys := ⟨Watcher.new, Manager.new, none⟩

/-- One event; returns the new system and the notifications emitted. -/
def FlockSys.step (s : FlockSys) : SysEvent → FlockSys × List StatusUpdate
  | .fileEvent path content =>
    let r := s.w.handleFile path content
    let mf := applyStatusMsgs (s.mgr, s.file) r.2.2
    (⟨r.1, mf.1, mf.2⟩, r.2.1)
  | .startTask id =>
    match s.mgr.updateStatus id statusWorking with
    | .ok r => (⟨s.w, r.1, storeSave s.file r.2⟩, [])
    | .error _ => (⟨s.w, s.mgr, s.file⟩, [])
  | .createTask n pf c now =>
    let r := s.mgr.create n pf c now
    (⟨s.w, r.1, storeSave s.file r.2.1⟩, [])
  | .deleteTask id =>
    match s.mgr.delete id with
    | .ok r => (⟨s.w, r.1, storeSave s.file r.2⟩, [])
    | .error _ => (⟨s.w, s.mgr, s.file⟩, [])

def runSys (s : FlockSys) : List SysEvent → FlockSys
  | [] => s
  | e :: es => runSys (s.step e).1 es

def FlockSys.statusOf (s : FlockSys) (id : String) : Option String :=
  (s.mgr.get id).map (fun t => t.status)

/-! ## Startup (`cmd/flock/main.go` and `Watcher.Start`)

`main` loads the manager, deletes stale status files, then starts the
watcher, which processes the surviving `.status` files once with
notifications suppressed; the updates it forwards are drained by the TUI.
The status directory is a list of (file name, contents-as-lines) pairs
(directory entries that are subdirectories are not modelled; the watched
directory holds only status files). -/

/-- Model of `cleanupStaleStatusFiles`: delete every `.status` file whose name
minus the 7-byte `".status"` suffix is not a registered task ID. -/
def cleanupStale (files : List (String × List String)) (m : Manager) :
    List (String × List String) :=
  files.filter (fun f =>
    !(extOf f.1 = ".status" && (m.get (dropLastChars f.1 7)).isNone))

/-- The initial scan in `Watcher.Start`: `handleFile` on each `.status`
entry, in directory order, accumulating notifications and updates. -/
def scanFiles (w : Watcher) : List (String × List String) →
    Watcher × List StatusUpdate × List StatusUpdate
  | [] => (w, [], [])
  | f :: fs =>
    if goHasSuffixStr f.1 ".status" then
      let r := w.handleFile f.1 f.2
      let rest := scanFiles r.1 fs
      (rest.1, r.2.1 ++ rest.2.1, r.2.2 ++ rest.2.2)
    else scanFiles w fs

/-- The startup sequence: cleanup, then the initializing scan, then the
TUI drains the forwarded updates. Returns (surviving files, watcher,
notifications, registry-and-store). -/
def startup (files : List (String × List String)) (m : Manager) (f : StoreFile) :
    List (String × List String) × Watcher × List StatusUpdate × (Manager × StoreFile) :=
  let survivors := cleanupStale files m
  let scan := scanFiles ⟨[], true⟩ survivors
  (survivors, { scan.1 with initializing := false }, scan.2.1,
    applyStatusMsgs (m, f) scan.2.2)

/-! ## Git worktree pool (`internal/git/worktree.go`, `internal/git/assign.go`)

The repository's git state is explicit: its live worktree list, its local
branches, and the commit currently at the tip of the default branch. Each
subprocess-backed operation is a transition of that state, failing exactly
where the git command would (removal of an unregistered worktree,
creation over an existing branch or path). `GitEnv.resetFails` is an
external-failure oracle: the worktree paths for which the `git reset`
subprocess fails for reasons outside the modelled state. Facts git
reports about the calling task's working directory (`IsGitRepo`,
`GetRepoRoot`, `IsPathInWorktree`, `GetCurrentBranch`) are snapshotted in
`CwdInfo`. -/

structure Worktree where
  path : String
  commit : String
  branch : String
deriving DecidableEq, Repr

structure GitRepo where
  worktrees : List Worktree
  branches : List String
  defaultTip : String
deriving DecidableEq, Repr

structure GitEnv where
  resetFails : List String
deriving DecidableEq, Repr

structure CwdInfo where
  isGitRepo : Bool
  repoRoot : String
  isInWorktree : Bool
  currentBranch : String
deriving DecidableEq, Repr

/-- Model of `FlockWorktreeDir`. -/
def flockWorktreeDir : String := ".flock-worktrees"

/-- The recognition marker `"flock-"` (`FlockWorktreePrefix` in the source). -/
def flockMark : String := "flock-"

/-- Model of `git.WorktreePath`: `<repoRoot>/.flock-worktrees/flock-<id>`. -/
def worktreePathOf (repoRoot worktreeID : String) : String :=
  repoRoot ++ "/" ++ flockWorktreeDir ++ "/" ++ (flockMark ++ worktreeID)

/-- Model of `git.BranchName`: `flock-<id>`. -/
def branchNameOf (worktreeID : String) : String := flockMark ++ worktreeID

/-- Model of `git.IsFlockWorktree`: the path's base name carries the marker. -/
def isFlockWorktree (path : String) : Bool := goHasPrefixStr (baseName path) flockMark

/-- Model of `git.ListWorktrees` (`git worktree list --porcelain`): ground truth. -/
def listWorktrees (g : GitRepo) : List Worktree := g.worktrees

/-- Model of `git.CreateWorktree` (`git worktree add -b branch path defaultBranch`):
a new worktree checked out at the default tip on a new branch; git fails
when the branch or the path already exists. -/
def CreateWorktree (g : GitRepo) (path branch : String) : Except String GitRepo :=
  if g.branches.contains branch || (g.worktrees.map (fun wt => wt.path)).contains path then
    .error "failed to create worktree"
  else
    .ok { g with
          worktrees := g.worktrees ++ [⟨path, g.defaultTip, branch⟩]
          branches := g.branches ++ [branch] }

/-- Model of `git worktree remove --force <path>`: fails when the path is not a
registered worktree. -/
def removeWorktreeCmd (g : GitRepo) (path : String) : Except String GitRepo :=
  if (g.worktrees.map (fun wt => wt.path)).contains path then
    .ok { g with worktrees := g.worktrees.filter (fun wt => wt.path ≠ path) }
  else .error "failed to remove worktree"

/-- Model of `git branch -D <b>` with the error ignored, as in the source. -/
def deleteBranchCmd (g : GitRepo) (b : String) : GitRepo :=
  { g with branches := g.branches.filter (fun x => x ≠ b) }

/-- Model of `git.RemoveWorktree`: look up the branch first (when asked to delete
it), remove the worktree, then delete the branch only when it carries the
recognition marker. -/
def RemoveWorktree (g : GitRepo) (path : String) (deleteBranch : Bool) :
    Except String GitRepo :=
  let branch :=
    match g.worktrees.find? (fun wt => wt.path = path) with
    | some wt => wt.branch
    | none => ""
  match removeWorktreeCmd g path with
  | .error e => .error e
  | .ok g1 =>
    if deleteBranch && branch ≠ "" && goHasPrefixStr branch flockMark then
      .ok (deleteBranchCmd g1 branch)
    else .ok g1

/-- Model of `git.ResetWorktreeBranch`: `git -C <path> reset --hard <default>` —
the worktree's branch is moved to the default tip and its checkout made
clean; fails when the subprocess fails or when the path is gone
(`GetRepoRoot` then errors). -/
def ResetWorktreeBranch (env : GitEnv) (g : GitRepo) (worktreePath : String) :
    Except String GitRepo :=
  if env.resetFails.contains worktreePath then .error "failed to reset branch"
  else if (g.worktrees.map (fun wt => wt.path)).contains worktreePath then
    .ok { g with worktrees := g.worktrees.map (fun wt =>
      if wt.path = worktreePath then { wt with commit := g.defaultTip } else wt) }
  else .error "failed to get repo root"

/-- Model of `git.Assigner`. `maxPerRepo` is a Go `int` (the cap is enforced only
when positive); `creatingWorktrees` is the mid-creation path set. -/
structure Assigner where
  maxPerRepo : Int
  enabled : Bool
  creatingWorktrees : List String
deriving DecidableEq, Repr

/-- Model of `git.WorktreeAssignment`. -/
structure WorktreeAssignment where
  worktreePath : String
  gitBranch : String
  repoRoot : String
deriving DecidableEq, Repr

/-- The paths held by live tasks (their `GetWorktreePath`, when set) plus
the paths currently mid-creation. -/
def assignedPaths (a : Assigner) (activeTasks : List Task) : List String :=
  (activeTasks.filter (fun t => t.worktreePath ≠ "")).map (fun t => t.worktreePath)
    ++ a.creatingWorktrees

/-- Model of `Assigner.findFreeWorktree`: the first recognized worktree neither
held by a live task nor mid-creation. -/
def findFreeWorktree (a : Assigner) (g : GitRepo) (activeTasks : List Task) :
    Option String :=
  (g.worktrees.find? (fun wt =>
    isFlockWorktree wt.path && !((assignedPaths a activeTasks).contains wt.path))).map
    (fun wt => wt.path)

/-- Model of `Assigner.countFlockWorktrees`. -/
def countFlockWorktrees (g : GitRepo) : Nat :=
  (g.worktrees.filter (fun wt => isFlockWorktree wt.path)).length

/-- Model of `Assigner.AssignWorktree`, up to the return. The trailing
`go a.ensurePlusOne(...)` runs after the call returns and does not affect
the returned state; it is launched only on the non-error paths. Returns
the call's result and the git state at return time. -/
def AssignWorktree (a : Assigner) (env : GitEnv) (g : GitRepo) (info : CwdInfo)
    (taskID taskCwd : String) (activeTasks : List Task) :
    Except String (Option WorktreeAssignment) × GitRepo :=
  if !a.enabled then (.ok none, g)
  else if !info.isGitRepo then (.ok none, g)
  else if info.isInWorktree then
    (.ok (some ⟨taskCwd, info.currentBranch, info.repoRoot⟩), g)
  else
    match findFreeWorktree a g activeTasks with
    | some freePath =>
      match (listWorktrees g).find? (fun wt => wt.path = freePath) with
      | some wt =>
        match ResetWorktreeBranch env g wt.path with
        | .error e => (.error ("failed to reset worktree branch: " ++ e), g)
        | .ok g1 => (.ok (some ⟨wt.path, wt.branch, info.repoRoot⟩), g1)
      | none => (.ok none, g)
    | none =>
      if 0 < a.maxPerRepo && a.maxPerRepo ≤ (countFlockWorktrees g : Int) then
        (.error "maximum worktrees reached for this repository", g)
      else
        match CreateWorktree g (worktreePathOf info.repoRoot taskID) (branchNameOf taskID) with
        | .error e => (.error ("failed to create worktree: " ++ e), g)
        | .ok g1 =>
          (.ok (some ⟨worktreePathOf info.repoRoot taskID, branchNameOf taskID,
            info.repoRoot⟩), g1)

/-- Model of `Assigner.ReleaseWorktree`: a no-op on empty arguments, otherwise
`RemoveWorktree` with branch deletion. -/
def ReleaseWorktree (g : GitRepo) (worktreePath repoRoot : String) :
    Except String GitRepo :=
  if worktreePath = "" || repoRoot = "" then .ok g
  else RemoveWorktree g worktreePath true

def c3Task : Task := { NewTask "003" "demo" "" "/repo" 0 with status := statusWorking }

def c6Task : Task := { NewTask "007" "n" "" "/repo" 0 with status := statusDone }

def c6Sys : FlockSys := ⟨Watcher.new, ⟨[("007", c6Task)], 8⟩, none⟩

def c2Repo : GitRepo :=
  { worktrees := [⟨"/repo/.flock-worktrees/flock-000", "c0", "flock-000"⟩]
    branches := ["main", "flock-000"], defaultTip := "tip" }

def c2Task : Task := { NewTask "000" "n" "" "/repo" 0 with
  worktreePath := "/repo/.flock-worktrees/flock-000" }

def c2Info : CwdInfo :=
  { isGitRepo := true, repoRoot := "/repo", isInWorktree := false, currentBranch := "main" }

def c7Repo : GitRepo :=
  { worktrees := [⟨"/repo/.flock-worktrees/flock-001", "c0", "flock-001"⟩]
    branches := ["main", "flock-001"], defaultTip := "tip" }

def c8Repo : GitRepo :=
  { worktrees := [⟨"/repo/.flock-worktrees/flock-002", "old", "flock-002"⟩]
    branches := ["main", "flock-002"], defaultTip := "tip" }


/-! ## Theorems -/

theorem digitsAuxLE_eq_digits : ∀ fuel n, n ≤ fuel → digitsAuxLE fuel n = Nat.digits 10 n := by
  intro fuel
  induction fuel with
  | zero =>
    intro n hn
    interval_cases n
    simp [digitsAuxLE]
  | succ fuel ih =>
    intro n hn
    by_cases h0 : n = 0
    · subst h0; simp [digitsAuxLE]
    · have hdiv : n / 10 ≤ fuel := by omega
      rw [show digitsAuxLE (fuel + 1) n = n % 10 :: digitsAuxLE fuel (n / 10) by
            simp [digitsAuxLE, h0],
          ih (n / 10) hdiv, Nat.digits_def' (by omega : 1 < 10) (by omega : 0 < n)]

/-! ## Digit lemmas: `fmt.Sscanf "%d"` inverts `fmt.Sprintf "%03d"` -/

theorem charVal_digitChar {d : Nat} (h : d < 10) : charVal (digitChar d) = d := by
  interval_cases d <;> rfl

theorem isDigitCh_digitChar {d : Nat} (h : d < 10) : isDigitCh (digitChar d) = true := by
  interval_cases d <;> rfl

theorem digitsBE_lt (n : Nat) : ∀ d ∈ digitsBE n, d < 10 := by
  intro d hd
  unfold digitsBE at hd
  rw [digitsAuxLE_eq_digits n n (le_refl n)] at hd
  split at hd
  · simp at hd; omega
  · exact Nat.digits_lt_base (by omega) (List.mem_reverse.mp hd)

theorem digitsBE_ne_nil (n : Nat) : digitsBE n ≠ [] := by
  unfold digitsBE
  rw [digitsAuxLE_eq_digits n n (le_refl n)]
  split
  · simp
  · simp_all [Nat.digits_ne_nil_iff_ne_zero]

theorem foldr_eq_ofDigits (l : List Nat) :
    List.foldr (fun d a => 10 * a + d) 0 l = Nat.ofDigits 10 l := by
  induction l with
  | nil => rfl
  | cons d ds ih => simp [Nat.ofDigits_cons, ih]; ring

theorem valBE_digitsBE (n : Nat) : valBE (digitsBE n) = n := by
  unfold digitsBE valBE
  rw [digitsAuxLE_eq_digits n n (le_refl n)]
  split
  · simp_all [valBE]
  · rw [List.foldl_reverse]
    have : (fun (a : Nat) (d : Nat) => 10 * a + d) = fun a d => 10 * a + d := rfl
    calc List.foldr (fun d a => 10 * a + d) 0 (Nat.digits 10 n)
        = Nat.ofDigits 10 (Nat.digits 10 n) := foldr_eq_ofDigits _
      _ = n := Nat.ofDigits_digits 10 n

theorem valBE_replicate_zero (k : Nat) (l : List Nat) :
    valBE (List.replicate k 0 ++ l) = valBE l := by
  induction k with
  | zero => rfl
  | succ k ih => simpa [List.replicate_succ, valBE] using ih

theorem digitsVal_all_digits (l : List Char) (hds : ∀ c ∈ l, isDigitCh c = true)
    (hne : l ≠ []) : digitsVal l = some (valBE (l.map charVal)) := by
  unfold digitsVal
  rw [List.takeWhile_eq_self_iff.mpr hds]
  cases l with
  | nil => exact absurd rfl hne
  | cons c cs => rfl

theorem sscanfD_all_digits (l : List Char) (hds : ∀ c ∈ l, isDigitCh c = true)
    (hne : l ≠ []) :
    sscanfD ⟨l⟩ = some ((valBE (l.map charVal) : Nat) : Int) := by
  cases l with
  | nil => exact absurd rfl hne
  | cons c cs =>
    have hcd : isDigitCh c = true := hds c (List.mem_cons_self c cs)
    have hcm : c ≠ '-' := by
      intro h; rw [h] at hcd; simp [isDigitCh] at hcd
    have hcp : c ≠ '+' := by
      intro h; rw [h] at hcd; simp [isDigitCh] at hcd
    show sscanfD ⟨c :: cs⟩ = _
    unfold sscanfD
    simp only [if_neg hcm, if_neg hcp]
    rw [digitsVal_all_digits (c :: cs) hds (by simp)]
    rfl

/-- Parsing the zero-padded decimal rendering of `n` recovers `n`. -/
theorem sscanfD_pad3 (n : Nat) : sscanfD (pad3 n) = some (n : Int) := by
  have hds : ∀ c ∈ (List.replicate (3 - ((digitsBE n).map digitChar).length) '0'
      ++ (digitsBE n).map digitChar), isDigitCh c = true := by
    intro c hc
    rcases List.mem_append.mp hc with h | h
    · rw [List.eq_of_mem_replicate h]; rfl
    · obtain ⟨d, hd, rfl⟩ := List.mem_map.mp h
      exact isDigitCh_digitChar (digitsBE_lt n d hd)
  have hne : (List.replicate (3 - ((digitsBE n).map digitChar).length) '0'
      ++ (digitsBE n).map digitChar) ≠ [] := by
    intro h
    rcases List.append_eq_nil.mp h with ⟨-, h2⟩
    exact digitsBE_ne_nil n (List.map_eq_nil_iff.mp h2)
  have hmap : ((List.replicate (3 - ((digitsBE n).map digitChar).length) '0'
      ++ (digitsBE n).map digitChar).map charVal)
      = List.replicate (3 - ((digitsBE n).map digitChar).length) 0
      ++ digitsBE n := by
    rw [List.map_append, List.map_replicate]
    congr 1
    calc ((digitsBE n).map digitChar).map charVal
        = (digitsBE n).map (charVal ∘ digitChar) := by rw [List.map_map]
      _ = (digitsBE n).map id := by
          apply List.map_congr_left
          intro d hd
          exact charVal_digitChar (digitsBE_lt n d hd)
      _ = digitsBE n := List.map_id _
  show sscanfD ⟨List.replicate (3 - ((digitsBE n).map digitChar).length) '0'
      ++ (digitsBE n).map digitChar⟩ = some (n : Int)
  rw [sscanfD_all_digits _ hds hne, hmap, valBE_replicate_zero, valBE_digitsBE]

/-! ## Persistence round trip (claim C5 groundwork) -/

theorem setF_id (t : Task) (x : String) :
    setTaskField t ("id", .jstr x) = some { t with id := x } := rfl

theorem setF_name (t : Task) (x : String) :
    setTaskField t ("name", .jstr x) = some { t with name := x } := rfl

theorem setF_promptFile (t : Task) (x : String) :
    setTaskField t ("prompt_file", .jstr x) = some { t with promptFile := x } := rfl

theorem setF_prompt (t : Task) (x : String) :
    setTaskField t ("prompt", .jstr x) = some { t with prompt := x } := rfl

theorem setF_cwd (t : Task) (x : String) :
    setTaskField t ("cwd", .jstr x) = some { t with cwd := x } := rfl

theorem setF_status (t : Task) (x : String) :
    setTaskField t ("status", .jstr x) = some { t with status := x } := rfl

theorem setF_tabName (t : Task) (x : String) :
    setTaskField t ("tab_name", .jstr x) = some { t with tabName := x } := rfl

theorem setF_useWorktree (t : Task) (b : Bool) :
    setTaskField t ("use_worktree", .jbool b) = some { t with useWorktree := b } := rfl

theorem setF_worktreePath (t : Task) (x : String) :
    setTaskField t ("worktree_path", .jstr x) = some { t with worktreePath := x } := rfl

theorem setF_gitBranch (t : Task) (x : String) :
    setTaskField t ("git_branch", .jstr x) = some { t with gitBranch := x } := rfl

theorem setF_repoRoot (t : Task) (x : String) :
    setTaskField t ("repo_root", .jstr x) = some { t with repoRoot := x } := rfl

theorem setF_createdAt (t : Task) (v : Int) :
    setTaskField t ("created_at", .jnum v) = some { t with createdAt := v } := rfl

theorem setF_updatedAt (t : Task) (v : Int) :
    setTaskField t ("updated_at", .jnum v) = some { t with updatedAt := v } := rfl

theorem fold_seg_promptFile (t : Task) (x : String) (h : t.promptFile = "") :
    List.foldl setTaskFieldO (some t) (if x = "" then [] else [("prompt_file", .jstr x)])
      = some { t with promptFile := x } := by
  by_cases hx : x = ""
  · simp only [hx, if_true, List.foldl_nil, ite_true]
    obtain ⟨i, n, pf, p, c, s, tn, uw, wp, gb, rr, ca, ua⟩ := t
    simp_all
  · simp [hx, setTaskFieldO, setF_promptFile]

theorem fold_seg_prompt (t : Task) (x : String) (h : t.prompt = "") :
    List.foldl setTaskFieldO (some t) (if x = "" then [] else [("prompt", .jstr x)])
      = some { t with prompt := x } := by
  by_cases hx : x = ""
  · simp only [hx, if_true, List.foldl_nil, ite_true]
    obtain ⟨i, n, pf, p, c, s, tn, uw, wp, gb, rr, ca, ua⟩ := t
    simp_all
  · simp [hx, setTaskFieldO, setF_prompt]

theorem fold_seg_worktreePath (t : Task) (x : String) (h : t.worktreePath = "") :
    List.foldl setTaskFieldO (some t) (if x = "" then [] else [("worktree_path", .jstr x)])
      = some { t with worktreePath := x } := by
  by_cases hx : x = ""
  · simp only [hx, if_true, List.foldl_nil, ite_true]
    obtain ⟨i, n, pf, p, c, s, tn, uw, wp, gb, rr, ca, ua⟩ := t
    simp_all
  · simp [hx, setTaskFieldO, setF_worktreePath]

theorem fold_seg_gitBranch (t : Task) (x : String) (h : t.gitBranch = "") :
    List.foldl setTaskFieldO (some t) (if x = "" then [] else [("git_branch", .jstr x)])
      = some { t with gitBranch := x } := by
  by_cases hx : x = ""
  · simp only [hx, if_true, List.foldl_nil, ite_true]
    obtain ⟨i, n, pf, p, c, s, tn, uw, wp, gb, rr, ca, ua⟩ := t
    simp_all
  · simp [hx, setTaskFieldO, setF_gitBranch]

theorem fold_seg_repoRoot (t : Task) (x : String) (h : t.repoRoot = "") :
    List.foldl setTaskFieldO (some t) (if x = "" then [] else [("repo_root", .jstr x)])
      = some { t with repoRoot := x } := by
  by_cases hx : x = ""
  · simp only [hx, if_true, List.foldl_nil, ite_true]
    obtain ⟨i, n, pf, p, c, s, tn, uw, wp, gb, rr, ca, ua⟩ := t
    simp_all
  · simp [hx, setTaskFieldO, setF_repoRoot]

theorem decodeTask_encodeTask (t : Task) : decodeTask (encodeTask t) = some t := by
  show List.foldl setTaskFieldO (some zeroTask) _ = some t
  simp only [List.foldl_append]
  rw [show List.foldl setTaskFieldO (some zeroTask) [("id", .jstr t.id), ("name", .jstr t.name)]
      = some { zeroTask with id := t.id, name := t.name } by
    simp [setTaskFieldO, setF_id, setF_name]]
  rw [fold_seg_promptFile _ _ rfl, fold_seg_prompt _ _ rfl]
  rw [show List.foldl setTaskFieldO
      (some { zeroTask with
        id := t.id, name := t.name, promptFile := t.promptFile
        prompt := t.prompt })
      [("cwd", .jstr t.cwd), ("status", .jstr t.status), ("tab_name", .jstr t.tabName),
        ("use_worktree", .jbool t.useWorktree)]
      = some { zeroTask with
          id := t.id, name := t.name, promptFile := t.promptFile
          prompt := t.prompt, cwd := t.cwd, status := t.status, tabName := t.tabName
          useWorktree := t.useWorktree } by
    simp [setTaskFieldO, setF_cwd, setF_status, setF_tabName, setF_useWorktree]]
  rw [fold_seg_worktreePath _ _ rfl, fold_seg_gitBranch _ _ rfl, fold_seg_repoRoot _ _ rfl]
  rw [show List.foldl setTaskFieldO
      (some { zeroTask with
        id := t.id, name := t.name, promptFile := t.promptFile
        prompt := t.prompt, cwd := t.cwd, status := t.status, tabName := t.tabName
        useWorktree := t.useWorktree, worktreePath := t.worktreePath
        gitBranch := t.gitBranch, repoRoot := t.repoRoot })
      [("created_at", .jnum t.createdAt), ("updated_at", .jnum t.updatedAt)]
      = some { zeroTask with
          id := t.id, name := t.name, promptFile := t.promptFile
          prompt := t.prompt, cwd := t.cwd, status := t.status, tabName := t.tabName
          useWorktree := t.useWorktree, worktreePath := t.worktreePath
          gitBranch := t.gitBranch, repoRoot := t.repoRoot, createdAt := t.createdAt
          updatedAt := t.updatedAt } by
    simp [setTaskFieldO, setF_createdAt, setF_updatedAt]]

theorem decodeTasks_encodeTasks (ts : List Task) :
    decodeTasks (encodeTasks ts) = some ts := by
  simp only [decodeTasks, encodeTasks]
  induction ts with
  | nil => rfl
  | cons t ts ih =>
    simp only [List.map_cons, decodeTaskList, decodeTask_encodeTask, ih]

/-- C5: persisting any list of tasks with `Store.Save` and reloading it
with `Store.Load` yields the same ordered list, every field of every
task preserved (timestamps are the serialized instants). -/
theorem claim_C5 (f : StoreFile) (ts : List Task) :
    storeLoad (storeSave f ts) = some ts := by
  show decodeTasks (encodeTasks ts) = some ts
  exact decodeTasks_encodeTasks ts

theorem step_mkTask (s : TSys) (n pf c : String) (now : Int) :
    (s.step (.mkTask n pf c now)).2 = some (pad3 s.mgr.counter) ∧
      ((s.step (.mkTask n pf c now)).1).mgr.counter = s.mgr.counter + 1 :=
  ⟨rfl, rfl⟩

theorem step_delTask (s : TSys) (id : String) :
    (s.step (.delTask id)).2 = none ∧
      ((s.step (.delTask id)).1).mgr.counter = s.mgr.counter := by
  simp only [TSys.step]
  unfold Manager.delete
  cases hget : s.mgr.get id <;> simp [hget]

/-- Within one process lifetime (no restart), assigned IDs have strictly
increasing numeric values, from any starting state. -/
theorem assignedIds_mono (ops : List MgrOp) :
    ∀ s : TSys, (∀ op ∈ ops, op ≠ MgrOp.restart) →
      (∀ v ∈ (assignedIds s ops).map idNum, (s.mgr.counter : Int) ≤ v) ∧
        ((assignedIds s ops).map idNum).Pairwise (· < ·) := by
  induction ops with
  | nil => exact fun s _ => ⟨by simp [assignedIds], by simp [assignedIds]⟩
  | cons op ops ih =>
    intro s h
    have hop : op ≠ MgrOp.restart := h op (List.mem_cons_self op ops)
    have hops : ∀ o ∈ ops, o ≠ MgrOp.restart := fun o ho => h o (List.mem_cons_of_mem _ ho)
    have hunf : assignedIds s (op :: ops)
        = (s.step op).2.toList ++ assignedIds (s.step op).1 ops := rfl
    cases op with
    | restart => exact absurd rfl hop
    | delTask id =>
      obtain ⟨h2, hc⟩ := step_delTask s id
      obtain ⟨ihb, ihp⟩ := ih ((s.step (.delTask id)).1) hops
      rw [hunf, h2]
      simp only [Option.toList_none, List.nil_append]
      exact ⟨fun v hv => le_trans (by exact_mod_cast le_of_eq hc.symm) (ihb v hv), ihp⟩
    | mkTask n pf c now =>
      obtain ⟨h2, hc⟩ := step_mkTask s n pf c now
      obtain ⟨ihb, ihp⟩ := ih ((s.step (.mkTask n pf c now)).1) hops
      rw [hunf, h2]
      have hidv : idNum (pad3 s.mgr.counter) = (s.mgr.counter : Int) := by
        simp [idNum, sscanfD_pad3]
      have htail : ∀ v ∈ (assignedIds (s.step (.mkTask n pf c now)).1 ops).map idNum,
          (s.mgr.counter : Int) + 1 ≤ v := by
        intro v hv
        have := ihb v hv
        rw [hc] at this
        exact_mod_cast this
      constructor
      · intro v hv
        simp only [Option.toList_some, List.singleton_append, List.map_cons,
          List.mem_cons] at hv
        rcases hv with rfl | hv
        · rw [hidv]
        · linarith [htail v hv]
      · simp only [Option.toList_some, List.singleton_append, List.map_cons]
        exact List.Pairwise.cons
          (fun v hv => by rw [hidv]; linarith [htail v hv]) ihp

theorem loadCounterStep_ge (c : Nat) (t : Task) : c ≤ loadCounterStep c t := by
  unfold loadCounterStep
  cases h : sscanfD t.id with
  | none => simp
  | some v =>
    simp only []
    split <;> omega

theorem foldl_loadCounterStep_ge (ts : List Task) :
    ∀ c, c ≤ ts.foldl loadCounterStep c := by
  induction ts with
  | nil => exact fun c => le_refl c
  | cons t ts ih =>
    intro c
    exact le_trans (loadCounterStep_ge c t) (ih (loadCounterStep c t))

theorem load_counter_gt (ts : List Task) :
    ∀ c (t : Task), t ∈ ts → ∀ v : Int, sscanfD t.id = some v →
      v < ((ts.foldl loadCounterStep c : Nat) : Int) := by
  induction ts with
  | nil => simp
  | cons t' ts ih =>
    intro c t ht v hv
    rcases List.mem_cons.mp ht with rfl | ht
    · have h1 : v < (loadCounterStep c t : Int) := by
        unfold loadCounterStep
        rw [hv]
        simp only []
        split <;> omega
      have h2 : loadCounterStep c t ≤ ts.foldl loadCounterStep (loadCounterStep c t) :=
        foldl_loadCounterStep_ge ts _
      have h3 : (t :: ts).foldl loadCounterStep c
          = ts.foldl loadCounterStep (loadCounterStep c t) := rfl
      rw [h3]
      omega
    · exact ih (loadCounterStep c t') t ht v hv

/-- C1 counterexample: after `Create` (→ "000"), `Create` (→ "001"),
`Delete "001"`, a restart (`NewManager` + `Load` of the persisted store),
the next `Create` assigns "001" again — the deleted ID is reused across a
reload, so assigned IDs are neither unique nor strictly increasing. -/
theorem claim_C1_counterexample :
    assignedIds TSys.init c1Ops = ["000", "001", "001"] ∧
      ¬ (assignedIds TSys.init c1Ops).Nodup := by
  have he : assignedIds TSys.init c1Ops = ["000", "001", "001"] := by decide
  exact ⟨he, by rw [he]; decide⟩

/-- C1 (amended): within one process lifetime — any sequence of
`Manager.Create` and `Manager.Delete` calls from any state — assigned IDs
have strictly increasing numeric values and are pairwise distinct; and
`Manager.Load` seeds the counter strictly above every numeric ID parsed
from the loaded store, so no persisted ID is reassigned after a restart.
(An ID whose task was deleted before the restart is no longer persisted,
which is exactly the reuse shown by the counterexample.) -/
theorem claim_C1 :
    (∀ (s : TSys) (ops : List MgrOp), (∀ op ∈ ops, op ≠ MgrOp.restart) →
      ((assignedIds s ops).map idNum).Pairwise (· < ·) ∧ (assignedIds s ops).Nodup)
    ∧ ∀ (m : Manager) (ts : List Task) (t : Task), t ∈ ts → ∀ v : Int,
        sscanfD t.id = some v → v < ((m.load ts).counter : Int) := by
  constructor
  · intro s ops h
    have hp := (assignedIds_mono ops s h).2
    refine ⟨hp, ?_⟩
    have hnd : ((assignedIds s ops).map idNum).Nodup :=
      hp.imp (fun hlt => ne_of_lt hlt)
    exact hnd.of_map idNum
  · intro m ts t ht v hv
    exact load_counter_gt ts m.counter t ht v hv

/-- Witness for C1's theorem at a concrete restart-free trace and a
concrete loaded store. -/
theorem claim_C1_witness :
    ((assignedIds TSys.init c1WOps).map idNum).Pairwise (· < ·) ∧
      (assignedIds TSys.init c1WOps).Nodup ∧
      (1 : Int) < ((Manager.new.load [NewTask "001" "x" "" "/repo" 0]).counter : Int) := by
  have h : ∀ op ∈ c1WOps, op ≠ MgrOp.restart := by decide
  refine ⟨(claim_C1.1 TSys.init c1WOps h).1, (claim_C1.1 TSys.init c1WOps h).2, ?_⟩
  exact claim_C1.2 Manager.new [NewTask "001" "x" "" "/repo" 0]
    (NewTask "001" "x" "" "/repo" 0) (by simp) 1 (by decide)

/-! ## Parser lemmas -/

theorem parseLine_taskID (st : StatusRec) (l : String) :
    (parseLine st l).taskID = (taskIdOfLine l).getD st.taskID := by
  unfold parseLine taskIdOfLine
  by_cases h1 : (goTrim l = "" || goHasPrefixStr (goTrim l) "#") = true
  · simp [h1]
  · simp only [h1, if_false, Bool.false_eq_true]
    cases hsp : splitEq (goTrim l).data with
    | none => simp
    | some kv =>
      simp only []
      by_cases hk1 : goTrim ⟨kv.1⟩ = "status"
      · have hne : goTrim ⟨kv.1⟩ ≠ "task_id" := by rw [hk1]; decide
        simp [hk1, hne]
      · by_cases hk2 : goTrim ⟨kv.1⟩ = "task_id"
        · simp [hk1, hk2]
        · by_cases hk3 : goTrim ⟨kv.1⟩ = "updated"
          · simp only [hk1, hk2, hk3, if_true, if_false, ite_true, ite_false]
            cases parseInt64 (goTrim ⟨kv.2⟩) <;> simp [hk2]
          · by_cases hk4 : goTrim ⟨kv.1⟩ = "tab_name"
            · simp [hk1, hk2, hk3, hk4]
            · by_cases hk5 : goTrim ⟨kv.1⟩ = "session_id" <;>
                simp [hk1, hk2, hk3, hk4, hk5]

theorem parseLine_updated (st : StatusRec) (l : String) :
    (parseLine st l).updated = (updatedOfLine l).getD st.updated := by
  unfold parseLine updatedOfLine
  by_cases h1 : (goTrim l = "" || goHasPrefixStr (goTrim l) "#") = true
  · simp [h1]
  · simp only [h1, if_false, Bool.false_eq_true]
    cases hsp : splitEq (goTrim l).data with
    | none => simp
    | some kv =>
      simp only []
      by_cases hk1 : goTrim ⟨kv.1⟩ = "status"
      · have hne : goTrim ⟨kv.1⟩ ≠ "updated" := by rw [hk1]; decide
        simp [hk1, hne]
      · by_cases hk2 : goTrim ⟨kv.1⟩ = "task_id"
        · have hne : goTrim ⟨kv.1⟩ ≠ "updated" := by rw [hk2]; decide
          simp [hk1, hk2, hne]
        · by_cases hk3 : goTrim ⟨kv.1⟩ = "updated"
          · simp only [hk1, hk2, hk3, if_true, if_false, ite_true, ite_false]
            cases parseInt64 (goTrim ⟨kv.2⟩) <;> simp
          · by_cases hk4 : goTrim ⟨kv.1⟩ = "tab_name"
            · simp [hk1, hk2, hk3, hk4]
            · by_cases hk5 : goTrim ⟨kv.1⟩ = "session_id" <;>
                simp [hk1, hk2, hk3, hk4, hk5]

theorem parseLine_skipped (st : StatusRec) (l : String) (h : skippedLine l = true) :
    parseLine st l = st := by
  unfold parseLine
  unfold skippedLine at h
  by_cases h1 : (goTrim l = "" || goHasPrefixStr (goTrim l) "#") = true
  · simp [h1]
  · simp only [h1, if_false, Bool.false_eq_true]
    rw [Bool.or_eq_true, Bool.or_eq_true] at h
    rcases h with (h | h) | h
    · exact absurd (by simp [h]) h1
    · exact absurd (by simp [h]) h1
    · cases hsp : splitEq (goTrim l).data with
      | none => simp
      | some kv =>
        rw [hsp] at h
        simp only [] at h ⊢
        by_cases hk1 : goTrim ⟨kv.1⟩ = "status"
        · simp [hk1] at h
        · by_cases hk2 : goTrim ⟨kv.1⟩ = "task_id"
          · simp [hk1, hk2] at h
          · by_cases hk4 : goTrim ⟨kv.1⟩ = "tab_name"
            · simp [hk1, hk2, hk4] at h
            · by_cases hk5 : goTrim ⟨kv.1⟩ = "session_id"
              · simp [hk1, hk2, hk4, hk5] at h
              · by_cases hk3 : goTrim ⟨kv.1⟩ = "updated"
                · simp only [hk1, hk2, hk3, hk4, hk5, if_true, if_false,
                    ite_true, ite_false] at h ⊢
                  cases hpi : parseInt64 (goTrim ⟨kv.2⟩) with
                  | none => simp
                  | some v => simp_all
                · simp [hk1, hk2, hk3, hk4, hk5]

theorem foldl_parseLine_field {α : Type} (extract : StatusRec → α) (f : String → Option α)
    (hline : ∀ st l, extract (parseLine st l) = (f l).getD (extract st)) :
    ∀ (ls : List String) (st : StatusRec),
      extract (ls.foldl parseLine st) = (lastSome f ls).getD (extract st) := by
  intro ls
  induction ls with
  | nil => intro st; rfl
  | cons l ls ih =>
    intro st
    show extract (ls.foldl parseLine (parseLine st l)) = _
    rw [ih]
    cases h : lastSome f ls with
    | some v => simp [lastSome, h, Option.orElse]
    | none => simp [lastSome, h, Option.orElse, hline st l]

theorem foldl_parseLine_taskID (ls : List String) (st : StatusRec) :
    (ls.foldl parseLine st).taskID = (lastSome taskIdOfLine ls).getD st.taskID :=
  foldl_parseLine_field (fun r => r.taskID) taskIdOfLine parseLine_taskID ls st

theorem foldl_parseLine_updated (ls : List String) (st : StatusRec) :
    (ls.foldl parseLine st).updated = (lastSome updatedOfLine ls).getD st.updated :=
  foldl_parseLine_field (fun r => r.updated) updatedOfLine parseLine_updated ls st

theorem lastSome_none {α : Type} (f : String → Option α) (ls : List String)
    (h : ∀ l ∈ ls, f l = none) : lastSome f ls = none := by
  induction ls with
  | nil => rfl
  | cons l ls ih =>
    have h1 : f l = none := h l (List.mem_cons_self l ls)
    have h2 : lastSome f ls = none := ih (fun x hx => h x (List.mem_cons_of_mem _ hx))
    simp [lastSome, h1, h2, Option.orElse]

/-- C10 counterexample: the file `["task_id=007", "task_id="]` contains a
`task_id` key=value line (with the non-empty value `007`), and it can be
opened and read, yet `ParseStatusFile` rejects it: the later `task_id`
line overwrites the field with an empty value, so "error iff no task_id
key=value line" does not hold as stated. -/
theorem claim_C10_counterexample :
    taskIdOfLine "task_id=007" = some "007" ∧
      exOk (parseStatusFile ["task_id=007", "task_id="]) = false := by
  constructor
  · decide
  · decide

/-- C10 (amended): `ParseStatusFile` fails exactly when the file cannot
be opened or read (outside the model) or parsing leaves the task-ID field
empty — no `task_id` key=value line is present, or the last one carries
an empty (trimmed) value. Every other malformation — blank line, `#`
comment, line without `=`, unrecognized key, non-numeric `updated` value
— leaves the record unchanged, so the file is accepted with those fields
at their zero values; in particular `Updated` stays `0` when no
parsable `updated` line exists. -/
theorem claim_C10 :
    (∀ lines : List String,
      exOk (parseStatusFile lines) = true ↔ (lastSome taskIdOfLine lines).getD "" ≠ "")
    ∧ (∀ (st : StatusRec) (l : String), skippedLine l = true → parseLine st l = st)
    ∧ (∀ lines : List String, (∀ l ∈ lines, updatedOfLine l = none) →
        (lines.foldl parseLine zeroStatusRec).updated = 0) := by
  refine ⟨?_, fun st l h => parseLine_skipped st l h, ?_⟩
  · intro lines
    unfold parseStatusFile
    by_cases h : (lines.foldl parseLine zeroStatusRec).taskID = ""
    · rw [foldl_parseLine_taskID] at h
      simp only [foldl_parseLine_taskID, h, if_true, ite_true]
      constructor
      · intro hx; simp [exOk] at hx
      · intro hx; exact absurd h hx
    · rw [foldl_parseLine_taskID] at h
      simp only [foldl_parseLine_taskID, h, if_false, ite_false]
      constructor
      · intro _; exact h
      · intro _; rfl
  · intro lines h
    rw [foldl_parseLine_updated, lastSome_none updatedOfLine lines h]
    rfl

/-- Witness for C10's theorem on a concrete well-formed file, a concrete
skipped line, and a concrete file with no parsable `updated` line. -/
theorem claim_C10_witness :
    (exOk (parseStatusFile ["status=WORKING", "task_id=003", "updated=soon"]) = true ↔
      (lastSome taskIdOfLine ["status=WORKING", "task_id=003", "updated=soon"]).getD ""
        ≠ "") ∧
    parseLine zeroStatusRec "# comment" = zeroStatusRec ∧
    (["status=WORKING", "task_id=003", "updated=soon"].foldl parseLine
      zeroStatusRec).updated = 0 := by
  refine ⟨claim_C10.1 _, claim_C10.2.1 zeroStatusRec "# comment" (by decide),
    claim_C10.2.2 _ ?_⟩
  decide

/-- C4: for file contents with no `task_id` key=value line,
`ParseStatusFile` returns its "missing task_id" error (it is a total
function — no panic), and `Watcher.handleFile` drops the file silently:
the watcher state is unchanged, no listener notification is emitted, and
no update is forwarded toward the Registry. -/
theorem claim_C4 (w : Watcher) (path : String) (lines : List String)
    (h : ∀ l ∈ lines, taskIdOfLine l = none) :
    parseStatusFile lines = .error "missing task_id in status file" ∧
      w.handleFile path lines = (w, [], []) := by
  have herr : parseStatusFile lines = .error "missing task_id in status file" := by
    unfold parseStatusFile
    rw [foldl_parseLine_taskID, lastSome_none taskIdOfLine lines h]
    rfl
  refine ⟨herr, ?_⟩
  unfold Watcher.handleFile
  by_cases hs : goHasSuffixStr path ".status" = true
  · simp [hs, herr]
  · simp [hs]

/-- Witness for C4 at a concrete watcher and file. -/
theorem claim_C4_witness :
    parseStatusFile ["status=WORKING", "# note"] = .error "missing task_id in status file"
      ∧ Watcher.new.handleFile "x.status" ["status=WORKING", "# note"]
        = (Watcher.new, [], []) :=
  claim_C4 Watcher.new "x.status" ["status=WORKING", "# note"] (by decide)

/-! ## Registry and watcher-map lemmas -/

theorem find?_map_keyfix {β : Type} (l : List (String × β)) (q : String × β → Bool)
    (upd : String × β → String × β) (hk : ∀ e, q (upd e) = q e) :
    (l.map upd).find? q = (l.find? q).map upd := by
  induction l with
  | nil => rfl
  | cons e es ih =>
    rw [List.map_cons]
    cases hp : q e with
    | true =>
      rw [List.find?_cons_of_pos _ (by rw [hk]; exact hp),
        List.find?_cons_of_pos _ hp]
      rfl
    | false =>
      rw [List.find?_cons_of_neg _ (by rw [hk]; simp [hp]),
        List.find?_cons_of_neg _ (by simp [hp]), ih]

theorem get_some_elim (m : Manager) (id : String) (t : Task) (h : m.get id = some t) :
    ∃ e, m.entries.find? (fun x => x.1 = id) = some e ∧ e.2 = t := by
  unfold Manager.get at h
  cases hf : m.entries.find? (fun x => x.1 = id) with
  | none => rw [hf] at h; simp at h
  | some e =>
    rw [hf] at h
    simp at h
    exact ⟨e, rfl, h⟩

theorem get_updateStatus (m : Manager) (id v : String) (t : Task)
    (h : m.get id = some t) :
    ∃ m2 snap, m.updateStatus id v = .ok (m2, snap) ∧
      m2.get id = some { t with status := v } ∧ m2.counter = m.counter := by
  obtain ⟨e, he, het⟩ := get_some_elim m id t h
  have hei : e.1 = id := by
    have hp := List.find?_some he
    simpa using hp
  unfold Manager.updateStatus Manager.update
  rw [h]
  refine ⟨_, _, rfl, ?_, rfl⟩
  unfold Manager.get
  dsimp only
  rw [find?_map_keyfix _ _ _ (by intro e2; by_cases hh : e2.1 = id <;> simp [hh]), he]
  simp [hei, het]

theorem get_applyStatusMsg_none (m : Manager) (f : StoreFile) (u : StatusUpdate)
    (id : String) (h : m.get id = none) :
    ((applyStatusMsg m f u).1).get id = none := by
  have hfind : m.entries.find? (fun x => x.1 = id) = none := by
    unfold Manager.get at h
    exact Option.map_eq_none'.mp h
  unfold applyStatusMsg Manager.updateStatus Manager.update
  cases hg : m.get u.taskID with
  | none => simp only [hg]; exact h
  | some t =>
    simp only [hg]
    unfold Manager.get
    dsimp only
    rw [find?_map_keyfix _ _ _ (by intro e2; by_cases hh : e2.1 = u.taskID <;> simp [hh]),
      hfind]
    rfl

theorem get_applyStatusMsgs_none (us : List StatusUpdate) :
    ∀ (m : Manager) (f : StoreFile) (id : String), m.get id = none →
      ((applyStatusMsgs (m, f) us).1).get id = none := by
  induction us with
  | nil => intro m f id h; exact h
  | cons u us ih =>
    intro m f id h
    show ((applyStatusMsgs (applyStatusMsg m f u) us).1).get id = none
    exact ih (applyStatusMsg m f u).1 (applyStatusMsg m f u).2 id
      (get_applyStatusMsg_none m f u id h)

theorem find?_setmap (l : List (String × String)) (k : String) (v : String) :
    ((l.map (fun e => if e.1 = k then (k, v) else e)).find? (fun e => e.1 = k))
      = (l.find? (fun e => e.1 = k)).map (fun _ => (k, v)) := by
  induction l with
  | nil => rfl
  | cons e es ih => by_cases he : e.1 = k <;> simp [List.find?, he, ih]

theorem find?_append_last (l : List (String × String)) (k : String) (v : String)
    (h : l.find? (fun e => e.1 = k) = none) :
    ((l ++ [(k, v)]).find? (fun e => e.1 = k)) = some (k, v) := by
  induction l with
  | nil => simp [List.find?]
  | cons e es ih =>
    by_cases hp : e.1 = k
    · rw [List.find?_cons_of_pos _ (by simp [hp])] at h
      simp at h
    · rw [List.find?_cons_of_neg _ (by simp [hp])] at h
      rw [List.cons_append, List.find?_cons_of_neg _ (by simp [hp])]
      exact ih h

theorem lookupLS_setLS (m : List (String × String)) (k v : String) :
    lookupLS (setLS m k v) k = some v := by
  unfold setLS lookupLS
  by_cases h : (m.find? (fun e => e.1 = k)).isSome
  · rw [if_pos h, find?_setmap]
    obtain ⟨e, he⟩ := Option.isSome_iff_exists.mp h
    rw [he]
    rfl
  · have hn : m.find? (fun e => e.1 = k) = none := by
      cases hf : m.find? (fun e => e.1 = k) with
      | none => rfl
      | some e => rw [hf] at h; simp at h
    rw [if_neg h, find?_append_last m k v hn]
    rfl

/-! ## Claims C3, C6, C9 -/

/-- C3: ingesting the same status record twice in a row (its status
differing from the last recorded one, outside the startup scan) emits
exactly one listener notification, forwards the raw update to the
registry both times, and leaves the registry's stored status equal to the
record's value. -/
theorem claim_C3 (w : Watcher) (m : Manager) (f : StoreFile) (st : StatusRec) (t : Task)
    (hinit : w.initializing = false)
    (hlast : lookupLS w.lastStatus st.taskID ≠ some st.status)
    (hreg : m.get st.taskID = some t) :
    (w.ingest st).2.1 ++ ((w.ingest st).1.ingest st).2.1 = [⟨st.taskID, st.status⟩] ∧
    (w.ingest st).2.2 ++ ((w.ingest st).1.ingest st).2.2
      = [⟨st.taskID, st.status⟩, ⟨st.taskID, st.status⟩] ∧
    ((applyStatusMsgs (m, f)
        ((w.ingest st).2.2 ++ ((w.ingest st).1.ingest st).2.2)).1.get st.taskID).map
      (fun x => x.status) = some st.status := by
  have h1 : w.ingest st
      = ({ w with lastStatus := setLS w.lastStatus st.taskID st.status },
        [⟨st.taskID, st.status⟩], [⟨st.taskID, st.status⟩]) := by
    simp [Watcher.ingest, hlast, hinit]
  have h2 : ({ w with lastStatus := setLS w.lastStatus st.taskID st.status } :
        Watcher).ingest st
      = ({ w with lastStatus := setLS w.lastStatus st.taskID st.status }, [],
        [⟨st.taskID, st.status⟩]) := by
    simp [Watcher.ingest, lookupLS_setLS]
  obtain ⟨m2, s2, hupd2, hget2, -⟩ := get_updateStatus m st.taskID st.status t hreg
  obtain ⟨m3, s3, hupd3, hget3, -⟩ :=
    get_updateStatus m2 st.taskID st.status { t with status := st.status } hget2
  have ha1 : applyStatusMsg m f ⟨st.taskID, st.status⟩ = (m2, storeSave f s2) := by
    unfold applyStatusMsg
    dsimp only
    rw [hreg, hupd2]
  have ha2 : applyStatusMsg m2 (storeSave f s2) ⟨st.taskID, st.status⟩
      = (m3, storeSave (storeSave f s2) s3) := by
    unfold applyStatusMsg
    dsimp only
    rw [hget2, hupd3]
  refine ⟨by simp [h1, h2], by simp [h1, h2], ?_⟩
  rw [h1]
  dsimp only
  rw [h2]
  dsimp only
  show ((applyStatusMsgs (applyStatusMsg m f ⟨st.taskID, st.status⟩)
      [⟨st.taskID, st.status⟩]).1.get st.taskID).map (fun x => x.status) = some st.status
  rw [ha1]
  show ((applyStatusMsg m2 (storeSave f s2) ⟨st.taskID, st.status⟩).1.get
      st.taskID).map (fun x => x.status) = some st.status
  rw [ha2]
  show (m3.get st.taskID).map (fun x => x.status) = some st.status
  rw [hget3]
  rfl

/-- Witness for C3 at a concrete watcher, registry and record. -/
theorem claim_C3_witness :
    (Watcher.new.ingest ⟨"WAITING", "003", 0, "", ""⟩).2.1
        ++ ((Watcher.new.ingest ⟨"WAITING", "003", 0, "", ""⟩).1.ingest
          ⟨"WAITING", "003", 0, "", ""⟩).2.1 = [⟨"003", "WAITING"⟩] ∧
    (Watcher.new.ingest ⟨"WAITING", "003", 0, "", ""⟩).2.2
        ++ ((Watcher.new.ingest ⟨"WAITING", "003", 0, "", ""⟩).1.ingest
          ⟨"WAITING", "003", 0, "", ""⟩).2.2
      = [⟨"003", "WAITING"⟩, ⟨"003", "WAITING"⟩] ∧
    ((applyStatusMsgs (⟨[("003", c3Task)], 4⟩, (none : StoreFile))
        ((Watcher.new.ingest ⟨"WAITING", "003", 0, "", ""⟩).2.2
          ++ ((Watcher.new.ingest ⟨"WAITING", "003", 0, "", ""⟩).1.ingest
            ⟨"WAITING", "003", 0, "", ""⟩).2.2)).1.get "003").map
      (fun x => x.status) = some "WAITING" :=
  claim_C3 Watcher.new ⟨[("003", c3Task)], 4⟩ none ⟨"WAITING", "003", 0, "", ""⟩ c3Task
    rfl (by decide) rfl

/-- C6 counterexample: from the initial system, create a task (status
`PENDING`), then ingest a status file carrying `WAITING` for it — the
task moves directly from `PENDING` to `WAITING`, so "to `WAITING` only
from `WORKING`/`WAITING`" fails on a reachable trace: no component
validates the transition. -/
theorem claim_C6_counterexample :
    (runSys FlockSys.init [SysEvent.createTask "t" "" "/repo" 0]).statusOf "000"
      = some statusPending ∧
    (runSys FlockSys.init [SysEvent.createTask "t" "" "/repo" 0,
        SysEvent.fileEvent "000.status" ["status=WAITING", "task_id=000"]]).statusOf "000"
      = some statusWaiting := by
  constructor
  · rfl
  · rfl

/-- C6 (amended): the registry is a trusting sink and the pipeline
forwards every parsed record unvalidated, so after a file event whose
record refers to a registered task, that task's stored status equals the
record's status value — whatever the prior status was (including
`PENDING` or `DONE` moving directly to `WAITING`). -/
theorem claim_C6 (s : FlockSys) (path : String) (content : List String)
    (st : StatusRec) (t : Task)
    (hsuf : goHasSuffixStr path ".status" = true)
    (hparse : parseStatusFile content = .ok st)
    (hreg : s.mgr.get st.taskID = some t) :
    ((s.step (.fileEvent path content)).1).statusOf st.taskID = some st.status := by
  have hupds : (s.w.handleFile path content).2.2 = [⟨st.taskID, st.status⟩] := by
    by_cases hl : lookupLS s.w.lastStatus st.taskID = some st.status <;>
      simp [Watcher.handleFile, hsuf, hparse, Watcher.ingest, hl]
  obtain ⟨m2, s2, hupd2, hget2, -⟩ := get_updateStatus s.mgr st.taskID st.status t hreg
  have ha : applyStatusMsg s.mgr s.file ⟨st.taskID, st.status⟩ = (m2, storeSave s.file s2) := by
    unfold applyStatusMsg
    dsimp only
    rw [hreg, hupd2]
  show ((applyStatusMsgs (s.mgr, s.file) (s.w.handleFile path content).2.2).1.get
      st.taskID).map (fun x => x.status) = some st.status
  rw [hupds]
  show ((applyStatusMsg s.mgr s.file ⟨st.taskID, st.status⟩).1.get st.taskID).map
    (fun x => x.status) = some st.status
  rw [ha]
  show (m2.get st.taskID).map (fun x => x.status) = some st.status
  rw [hget2]
  rfl

/-- Witness for C6's theorem: a `DONE` task moved to `WAITING` by one
file event. -/
theorem claim_C6_witness :
    ((c6Sys.step (.fileEvent "007.status" ["status=WAITING", "task_id=007"])).1).statusOf
      "007" = some "WAITING" :=
  claim_C6 c6Sys "007.status" ["status=WAITING", "task_id=007"]
    ⟨"WAITING", "007", 0, "", ""⟩ c6Task rfl rfl rfl

theorem handleFile_keeps_init (w : Watcher) (path : String) (content : List String) :
    ((w.handleFile path content).1).initializing = w.initializing ∧
      (w.initializing = true → (w.handleFile path content).2.1 = []) := by
  unfold Watcher.handleFile
  by_cases hs : goHasSuffixStr path ".status" = true
  · cases hp : parseStatusFile content with
    | error e => simp [hs, hp]
    | ok st =>
      by_cases hl : lookupLS w.lastStatus st.taskID = some st.status
      · simp [hs, hp, Watcher.ingest, hl]
      · constructor
        · simp [hs, hp, Watcher.ingest, hl]
        · intro h
          simp [hs, hp, Watcher.ingest, hl, h]
  · simp [hs]

theorem scanFiles_init (files : List (String × List String)) :
    ∀ w : Watcher, w.initializing = true →
      ((scanFiles w files).1).initializing = true ∧ (scanFiles w files).2.1 = [] := by
  induction files with
  | nil => intro w h; exact ⟨h, rfl⟩
  | cons f fs ih =>
    intro w h
    unfold scanFiles
    by_cases hs : goHasSuffixStr f.1 ".status" = true
    · simp only [hs, if_true, ite_true]
      obtain ⟨hi, hn⟩ := handleFile_keeps_init w f.1 f.2
      have h1 : ((w.handleFile f.1 f.2).1).initializing = true := by rw [hi]; exact h
      obtain ⟨ih1, ih2⟩ := ih ((w.handleFile f.1 f.2).1) h1
      refine ⟨ih1, ?_⟩
      rw [hn h, ih2]
      rfl
    · simp only [hs, if_false, Bool.false_eq_true, ite_false]
      exact ih w h

/-- C9: a pre-existing `.status` file whose name-embedded task ID is not
registered is removed by the startup cleanup before the watcher's scan,
the whole startup scan emits no listener notification (it runs in
initializing mode), and the registry still has no entry for that ID after
the forwarded updates are drained. -/
theorem claim_C9 (files : List (String × List String)) (m : Manager) (f : StoreFile)
    (name : String) (content : List String)
    (_hmem : (name, content) ∈ files)
    (hext : extOf name = ".status")
    (hstale : m.get (dropLastChars name 7) = none) :
    (name, content) ∉ (startup files m f).1 ∧
      (startup files m f).2.2.1 = [] ∧
      ((startup files m f).2.2.2).1.get (dropLastChars name 7) = none := by
  refine ⟨?_, ?_, ?_⟩
  · intro hin
    have hin2 : (name, content) ∈ cleanupStale files m := hin
    unfold cleanupStale at hin2
    rw [List.mem_filter] at hin2
    obtain ⟨-, hpred⟩ := hin2
    simp [hext, hstale] at hpred
  · exact (scanFiles_init (cleanupStale files m) ⟨[], true⟩ rfl).2
  · exact get_applyStatusMsgs_none
      (scanFiles ⟨[], true⟩ (cleanupStale files m)).2.2 m f (dropLastChars name 7) hstale

/-- Witness for C9: startup over a directory holding one stale file. -/
theorem claim_C9_witness :
    ("099.status", ["status=WORKING", "task_id=099"])
        ∉ (startup [("099.status", ["status=WORKING", "task_id=099"])]
          Manager.new none).1 ∧
      (startup [("099.status", ["status=WORKING", "task_id=099"])]
        Manager.new none).2.2.1 = [] ∧
      ((startup [("099.status", ["status=WORKING", "task_id=099"])]
        Manager.new none).2.2.2).1.get (dropLastChars "099.status" 7) = none :=
  claim_C9 [("099.status", ["status=WORKING", "task_id=099"])] Manager.new none
    "099.status" ["status=WORKING", "task_id=099"] (by simp) (by decide) rfl

/-! ## Claims C2, C7, C8 -/

/-- C2: with the pool enabled, the caller inside a repository but not
already in a worktree, every recognized (flock-prefixed) worktree either
held by a live task or mid-creation, and the positive cap not above the
recognized count, `AssignWorktree` returns the "maximum worktrees
reached" error and the git state — in particular the live worktree list —
is exactly what it was before the call. -/
theorem claim_C2 (a : Assigner) (env : GitEnv) (g : GitRepo) (info : CwdInfo)
    (taskID taskCwd : String) (tasks : List Task)
    (hen : a.enabled = true) (hrepo : info.isGitRepo = true)
    (hwt : info.isInWorktree = false)
    (hnofree : ∀ wt ∈ g.worktrees, isFlockWorktree wt.path = true →
      (assignedPaths a tasks).contains wt.path = true)
    (hmax : 0 < a.maxPerRepo)
    (hcnt : a.maxPerRepo ≤ (countFlockWorktrees g : Int)) :
    AssignWorktree a env g info taskID taskCwd tasks
      = (.error "maximum worktrees reached for this repository", g) := by
  have hfree : findFreeWorktree a g tasks = none := by
    unfold findFreeWorktree
    rw [List.find?_eq_none.mpr ?_]
    · rfl
    · intro wt hwtm
      cases hF : isFlockWorktree wt.path with
      | false => simp [hF]
      | true =>
        have hh := hnofree wt hwtm hF
        simp [hF]
        simpa using hh
  simp [AssignWorktree, hen, hrepo, hwt, hfree, hmax, hcnt]

/-- Witness for C2: one recognized worktree, held by a live task, cap 1. -/
theorem claim_C2_witness :
    AssignWorktree ⟨1, true, []⟩ ⟨[]⟩ c2Repo c2Info "001" "/repo" [c2Task]
      = (.error "maximum worktrees reached for this repository", c2Repo) :=
  claim_C2 ⟨1, true, []⟩ ⟨[]⟩ c2Repo c2Info "001" "/repo" [c2Task]
    rfl rfl rfl (by decide) (by decide) (by decide)

/-- C7 counterexample: releasing the workspace `flock-001` once succeeds,
but releasing the same workspace a second time — when it is no longer in
the repository's worktree list — makes `git worktree remove` fail, and
`ReleaseWorktree` surfaces that error: absence of the workspace IS an
error, so the call is not idempotent. -/
theorem claim_C7_counterexample :
    ReleaseWorktree c7Repo "/repo/.flock-worktrees/flock-001" "/repo"
      = .ok ⟨[], ["main"], "tip"⟩ ∧
    ReleaseWorktree ⟨[], ["main"], "tip"⟩ "/repo/.flock-worktrees/flock-001" "/repo"
      = .error "failed to remove worktree" := by
  constructor
  · rfl
  · rfl

/-- C7 (amended): `ReleaseWorktree` succeeds without touching git state
when the workspace path or the repo root is empty; for non-empty
arguments it delegates to `RemoveWorktree`, which fails whenever the
workspace path is absent from the repository's worktree list — so a
double release fails the second time rather than succeeding. -/
theorem claim_C7 (g : GitRepo) (p r : String) :
    ((p = "" ∨ r = "") → ReleaseWorktree g p r = .ok g) ∧
    (p ≠ "" → r ≠ "" → (g.worktrees.map (fun wt => wt.path)).contains p = false →
      ReleaseWorktree g p r = .error "failed to remove worktree") := by
  constructor
  · intro h
    unfold ReleaseWorktree
    rcases h with h | h <;> simp [h]
  · intro hp hr hc
    have hc2 : ¬ ∃ a ∈ g.worktrees, a.path = p := by simpa using hc
    unfold ReleaseWorktree RemoveWorktree removeWorktreeCmd
    simp [hp, hr, hc2]

/-- Witness for C7's theorem: the empty-argument no-op and the failing
release of an absent workspace. -/
theorem claim_C7_witness :
    ReleaseWorktree c7Repo "" "/repo" = .ok c7Repo ∧
    ReleaseWorktree c7Repo "/repo/.flock-worktrees/flock-009" "/repo"
      = .error "failed to remove worktree" :=
  ⟨(claim_C7 c7Repo "" "/repo").1 (Or.inl rfl),
    (claim_C7 c7Repo "/repo/.flock-worktrees/flock-009" "/repo").2
      (by decide) (by decide) (by decide)⟩

theorem find?_reset_commit (l : List Worktree) (fp tip : String)
    (h : (l.find? (fun w2 => w2.path = fp)).isSome = true) :
    ((l.map (fun w2 => if w2.path = fp then { w2 with commit := tip } else w2)).find?
      (fun w2 => w2.path = fp)).map (fun w2 => w2.commit) = some tip := by
  induction l with
  | nil => simp at h
  | cons e es ih =>
    by_cases hp : e.path = fp
    · simp [List.find?, hp]
    · rw [List.find?_cons_of_neg _ (by simp [hp])] at h
      simp only [List.map_cons, if_neg hp]
      rw [List.find?_cons_of_neg _ (by simp [hp])]
      exact ih h

/-- C8: when `AssignWorktree` takes the reuse path (a free recognized
workspace `fp` exists), then: if the reset subprocess does not fail, the
worktree found at `fp` is hard-reset to the default-branch tip — in the
returned state its checked-out commit is the default tip — and its
assignment is returned; if the reset fails, the call returns an error, no
assignment, and the git state unchanged. -/
theorem claim_C8 (a : Assigner) (env : GitEnv) (g : GitRepo) (info : CwdInfo)
    (taskID taskCwd : String) (tasks : List Task) (fp : String) (wt : Worktree)
    (hen : a.enabled = true) (hrepo : info.isGitRepo = true)
    (hwt : info.isInWorktree = false)
    (hfree : findFreeWorktree a g tasks = some fp)
    (hfind : (listWorktrees g).find? (fun w2 => w2.path = fp) = some wt) :
    (env.resetFails.contains fp = false →
      AssignWorktree a env g info taskID taskCwd tasks
        = (.ok (some ⟨wt.path, wt.branch, info.repoRoot⟩),
          { g with worktrees := g.worktrees.map (fun w2 =>
            if w2.path = fp then { w2 with commit := g.defaultTip } else w2) }) ∧
      (((AssignWorktree a env g info taskID taskCwd tasks).2.worktrees.find?
        (fun w2 => w2.path = fp)).map (fun w2 => w2.commit)) = some g.defaultTip) ∧
    (env.resetFails.contains fp = true →
      exOk (AssignWorktree a env g info taskID taskCwd tasks).1 = false ∧
      (AssignWorktree a env g info taskID taskCwd tasks).2 = g) := by
  have hwp : wt.path = fp := by
    have hp := List.find?_some hfind
    simpa using hp
  have hmem : wt ∈ g.worktrees := List.mem_of_find?_eq_some hfind
  have hcont : (g.worktrees.map (fun w2 => w2.path)).contains wt.path = true := by
    have : wt.path ∈ g.worktrees.map (fun w2 => w2.path) :=
      List.mem_map.mpr ⟨wt, hmem, rfl⟩
    exact List.elem_eq_true_of_mem this
  constructor
  · intro hok
    have hassign : AssignWorktree a env g info taskID taskCwd tasks
        = (.ok (some ⟨wt.path, wt.branch, info.repoRoot⟩),
          { g with worktrees := g.worktrees.map (fun w2 =>
            if w2.path = fp then { w2 with commit := g.defaultTip } else w2) }) := by
      unfold AssignWorktree
      rw [hen, hrepo, hwt]
      simp only [Bool.not_true, Bool.false_eq_true, if_false, ite_false,
        Bool.true_eq_false]
      rw [hfree]
      simp only [hfind]
      unfold ResetWorktreeBranch
      rw [hwp, if_neg (by simpa using hok)]
      rw [if_pos (by simpa using (hwp ▸ hcont : (g.worktrees.map
        (fun w2 => w2.path)).contains fp = true))]
    refine ⟨hassign, ?_⟩
    rw [hassign]
    exact find?_reset_commit g.worktrees fp g.defaultTip
      (by rw [show g.worktrees.find? (fun w2 => decide (w2.path = fp))
          = some wt from hfind]; rfl)
  · intro hfail
    unfold AssignWorktree
    rw [hen, hrepo, hwt]
    simp only [Bool.not_true, Bool.false_eq_true, if_false, ite_false,
      Bool.true_eq_false]
    rw [hfree]
    simp only [hfind]
    unfold ResetWorktreeBranch
    rw [hwp, if_pos (by simpa using hfail)]
    exact ⟨rfl, rfl⟩

/-- Witness for C8: a free workspace reused and reset on a clean
environment, and the same call failing without state change when the
reset subprocess fails. -/
theorem claim_C8_witness :
    (AssignWorktree ⟨3, true, []⟩ ⟨[]⟩ c8Repo c2Info "005" "/repo" []
      = (.ok (some ⟨"/repo/.flock-worktrees/flock-002", "flock-002", "/repo"⟩),
        { c8Repo with worktrees := c8Repo.worktrees.map (fun w2 =>
          if w2.path = "/repo/.flock-worktrees/flock-002" then
            { w2 with commit := c8Repo.defaultTip } else w2) })) ∧
    exOk (AssignWorktree ⟨3, true, []⟩ ⟨["/repo/.flock-worktrees/flock-002"]⟩ c8Repo
      c2Info "005" "/repo" []).1 = false ∧
    (AssignWorktree ⟨3, true, []⟩ ⟨["/repo/.flock-worktrees/flock-002"]⟩ c8Repo
      c2Info "005" "/repo" []).2 = c8Repo := by
  have hfree : findFreeWorktree ⟨3, true, []⟩ c8Repo []
      = some "/repo/.flock-worktrees/flock-002" := by decide
  have hfind : (listWorktrees c8Repo).find?
      (fun w2 => w2.path = "/repo/.flock-worktrees/flock-002")
      = some ⟨"/repo/.flock-worktrees/flock-002", "old", "flock-002"⟩ := by decide
  refine ⟨((claim_C8 ⟨3, true, []⟩ ⟨[]⟩ c8Repo c2Info "005" "/repo" [] _ _
      rfl rfl rfl hfree hfind).1 (by decide)).1, ?_, ?_⟩
  · exact ((claim_C8 ⟨3, true, []⟩ ⟨["/repo/.flock-worktrees/flock-002"]⟩ c8Repo
      c2Info "005" "/repo" [] _ _ rfl rfl rfl hfree hfind).2 (by decide)).1
  · exact ((claim_C8 ⟨3, true, []⟩ ⟨["/repo/.flock-worktrees/flock-002"]⟩ c8Repo
      c2Info "005" "/repo" [] _ _ rfl rfl rfl hfree hfind).2 (by decide)).2


end Flock
